import Mathlib

/-!
Verification of the `flow-collab` typed access layer against its specification.

The development shallowly embeds the two source files of the repository:

* `src/collab/src/core/map_wrapper.rs` — the `MapRefWrapper` handle over a
  CRDT map node, its typed getters, insertions, JSON round-trip helpers, and
  the transaction-scoping discipline of `CollabContext`.
* `src/collab-derive/src/internal/ast.rs` — the compile-time schema resolver:
  `ASTContainer::from_ast`, `ASTField::new` and `YrsAttribute::from_ast`.

A document node is modelled as a tagged value (`YrsValue`); a map node is an
association list from string keys to values, which is how the engine's
`MapRef` behaves observationally through `get`/`insert`.  Helpers of the
repository that live outside the two given files (`crate::util`,
`MapRefExtension`, `internal/ctxt.rs`) are modelled from the specification and
are marked as such in their doc comments.
-/

/-- Scalar payloads of the engine's generic `Any` value (the shapes claims
exercise: null, booleans, integers, strings). -/
inductive Scalar where
  | nullV : Scalar
  | boolV : Bool → Scalar
  | intV : Int → Scalar
  | strV : String → Scalar
deriving DecidableEq, Repr

/-- A document node value: map node, array node, text node, or scalar
(`yrs::types::Value` restricted to the closed variant set of the spec's data
model: Map, Array, Text, Scalar). -/
inductive YrsValue where
  | ymap : List (String × YrsValue) → YrsValue
  | yarray : List YrsValue → YrsValue
  | ytext : String → YrsValue
  | yany : Scalar → YrsValue
deriving Repr

/-- A map node's observable content: an association list of keyed values. -/
abbrev MapNode := List (String × YrsValue)

/-- Model of `serde_json::Value` restricted to the shapes the codec moves (numbers are
modelled as integers; the claims do not depend on number width). -/
inductive JsonValue where
  | null : JsonValue
  | bool : Bool → JsonValue
  | num : Int → JsonValue
  | str : String → JsonValue
  | arr : List JsonValue → JsonValue
  | obj : List (String × JsonValue) → JsonValue
deriving Repr

/-- Source `MapRef::get`: look a key up in a map node. -/
def mapGet (m : MapNode) (key : String) : Option YrsValue :=
  match m with
  | [] => none
  | (k, v) :: rest => if k = key then some v else mapGet rest key

/-- Source `MapRef::insert`: write a value under a key, replacing any prior value. -/
def mapInsert (m : MapNode) (key : String) (v : YrsValue) : MapNode :=
  match m with
  | [] => [(key, v)]
  | (k, w) :: rest =>
      if k = key then (key, v) :: rest else (k, w) :: mapInsert rest key v

/-- Modelled from the spec: `YrsValueExtension::to_yarray`
(`src/collab/src/core/value.rs`, not under `src/`) — "typed getters are thin
projections that match on the tag and discard non-matching variants". -/
def YrsValue.to_yarray : YrsValue → Option (List YrsValue)
  | .yarray xs => some xs
  | _ => none

/-- Modelled from the spec: `YrsValueExtension::to_ytext`
(`src/collab/src/core/value.rs`, not under `src/`) — the text-tag projection. -/
def YrsValue.to_ytext : YrsValue → Option String
  | .ytext s => some s
  | _ => none

/-- Source `MapRefWrapper::get_map_with_txn`: returns the inner map node when the key
holds a map node (`if let Some(YrsValue::YMap(map_ref)) = a`), `None`
otherwise. -/
def get_map_with_txn (m : MapNode) (key : String) : Option MapNode :=
  match mapGet m key with
  | some (YrsValue.ymap inner) => some inner
  | _ => none

/-- Source `MapRefWrapper::get_array_ref_with_txn`: `value?.to_yarray().cloned()?`. -/
def get_array_ref_with_txn (m : MapNode) (key : String) : Option (List YrsValue) := do
  let v ← mapGet m key
  v.to_yarray

/-- Source `MapRefWrapper::get_text_ref_with_txn`:
`self.map_ref.get(txn, key).map(|value| value.to_ytext().cloned())??`. -/
def get_text_ref_with_txn (m : MapNode) (key : String) : Option String :=
  ((mapGet m key).map (fun v => v.to_ytext)).join

/-- Source `MapRefWrapper::insert_array_with_txn`: inserts an array node built from
the given `Into<Any>` payloads (`In::Any`) under the key and returns a handle
to it (modelled as the array's items). -/
def insert_array_with_txn (m : MapNode) (key : String) (values : List Scalar) :
    MapNode × List YrsValue :=
  (mapInsert m key (.yarray (values.map YrsValue.yany)), values.map YrsValue.yany)

/-- Modelled from the spec: `MapRefExtension::create_array_if_not_exist_with_txn`
(the default trait method lives outside `src/`) — "idempotent: if `key`
already names an array node, returns a handle to the existing node untouched
(defaults are discarded); otherwise creates it seeded with `defaults`". -/
def create_array_if_not_exist_with_txn (m : MapNode) (key : String)
    (values : List Scalar) : MapNode × List YrsValue :=
  match get_array_ref_with_txn m key with
  | some xs => (m, xs)
  | none => insert_array_with_txn m key values

/-- Source `MapRefWrapper::get_or_insert_array_with_txn`:
`self.get_array_ref_with_txn(txn, key).unwrap_or_else(|| self.insert_array_with_txn::<V>(txn, key, vec![]))`. -/
def get_or_insert_array_with_txn (m : MapNode) (key : String) :
    MapNode × List YrsValue :=
  match get_array_ref_with_txn m key with
  | some xs => (m, xs)
  | none => insert_array_with_txn m key []

/-- A value handed to a generic `T: Serialize` parameter, as seen through
`serde_json::to_value`: either it serializes to a JSON value, or serialization
fails with an error message (e.g. a map with non-string keys). -/
inductive SerInput where
  | json : JsonValue → SerInput
  | unencodable : String → SerInput
deriving Repr

/-- Source `serde_json::to_value`: the encode side of the value codec. -/
def to_value : SerInput → Except String JsonValue
  | .json j => .ok j
  | .unencodable e => .error e

mutual
/-- The document-node tree a JSON value materializes as when recursively
written into the document: objects become map nodes, arrays become array
nodes, scalars become `Any` payloads. -/
def jsonToYrs : JsonValue → YrsValue
  | .null => .yany .nullV
  | .bool b => .yany (.boolV b)
  | .num n => .yany (.intV n)
  | .str s => .yany (.strV s)
  | .arr xs => .yarray (jsonListToYrs xs)
  | .obj fs => .ymap (jsonObjToYrs fs)

def jsonListToYrs : List JsonValue → List YrsValue
  | [] => []
  | j :: rest => jsonToYrs j :: jsonListToYrs rest

def jsonObjToYrs : List (String × JsonValue) → List (String × YrsValue)
  | [] => []
  | (k, j) :: rest => (k, jsonToYrs j) :: jsonObjToYrs rest
end

/-- Modelled from the spec: `insert_json_value_to_map_ref` (`crate::util`, not
under `src/`) — "recursively writes it into a freshly addressed map node at
`key`, overwriting any previous content".  The JSON value is materialized as a
node tree and written under `key` in the target map node. -/
def insert_json_value_to_map_ref (key : String) (v : JsonValue) (m : MapNode) :
    MapNode :=
  mapInsert m key (jsonToYrs v)

/-- Source `MapRefWrapper::insert_json_with_txn`: serializes (`unwrap` panics are
modelled as `Except.error`), then writes only under the guard
`if let Some(map_ref) = self.get_map_with_txn(txn, key)` — the write targets
the inner map node already stored at `key` (`map_ref.into_inner()`). -/
def insert_json_with_txn (m : MapNode) (key : String) (v : SerInput) :
    Except String MapNode :=
  match to_value v with
  | .error e => .error e
  | .ok value =>
      match get_map_with_txn m key with
      | some inner =>
          .ok (mapInsert m key (.ymap (insert_json_value_to_map_ref key value inner)))
      | none => .ok m

mutual
/-- Projection `yrs::types::ToJson` composed with `any_to_json_value` (`crate::util`, not
under `src/`): the projection of a node tree to a structured JSON value.
Modelled from the spec for the missing codec half: "`to_structured` is total,
must not fail on any value the engine can produce (maps, arrays, text,
scalars, nested combinations)". -/
def yrsToJson : YrsValue → JsonValue
  | .ymap fs => .obj (yrsObjToJson fs)
  | .yarray xs => .arr (yrsListToJson xs)
  | .ytext s => .str s
  | .yany .nullV => .null
  | .yany (.boolV b) => .bool b
  | .yany (.intV n) => .num n
  | .yany (.strV s) => .str s

def yrsListToJson : List YrsValue → List JsonValue
  | [] => []
  | v :: rest => yrsToJson v :: yrsListToJson rest

def yrsObjToJson : List (String × YrsValue) → List (String × JsonValue)
  | [] => []
  | (k, v) :: rest => (k, yrsToJson v) :: yrsObjToJson rest
end

/-- Source `MapRefWrapper::get_json_with_txn`: `get_map_with_txn(txn, key)?`, project
the map node to JSON, then `serde_json::from_value::<T>(json_value).ok()` —
the generic decoder for `T: DeserializeOwned` is a parameter. -/
def get_json_with_txn {α : Type} (decode : JsonValue → Option α)
    (m : MapNode) (key : String) : Option α :=
  match get_map_with_txn m key with
  | none => none
  | some inner => decode (yrsToJson (.ymap inner))

/-- State of `CollabContext` as observed through this wrapper: the document map the
handle references, plus the number of mutating transactions committed so far
(each `with_transact_mut` scope commits exactly once on exit). -/
structure CollabContext where
  doc : MapNode
  committed : Nat
deriving Repr

/-- Source `CollabContext::with_transact_mut` / `MapRefWrapper::with_transact_mut`:
opens one mutating transaction, runs the closure against the document, and
commits on scope exit. -/
def with_transact_mut {α : Type} (ctx : CollabContext)
    (f : MapNode → MapNode × α) : CollabContext × α :=
  let r := f ctx.doc
  ({ doc := r.1, committed := ctx.committed + 1 }, r.2)

/-- Source `MapRefWrapper::insert`: one `with_transact_mut` scope around one
`map_ref.insert`. -/
def wrapper_insert (ctx : CollabContext) (key : String) (v : YrsValue) :
    CollabContext :=
  (with_transact_mut ctx (fun d => (mapInsert d key v, ()))).1

/-- Source `MapRefWrapper::insert_array`: one `with_transact_mut` scope around one
`insert_array_with_txn`. -/
def wrapper_insert_array (ctx : CollabContext) (key : String)
    (values : List Scalar) : CollabContext × List YrsValue :=
  with_transact_mut ctx (fun d => insert_array_with_txn d key values)

/-- Source `MapRefWrapper::insert_map`: one `with_transact_mut` scope around one
`insert_map_with_txn` (the `MapPrelim` payload becomes a map node). -/
def wrapper_insert_map (ctx : CollabContext) (key : String)
    (entries : MapNode) : CollabContext :=
  (with_transact_mut ctx (fun d => (mapInsert d key (.ymap entries), ()))).1

/-- Source `MapRefWrapper::insert_json`: `serde_json::to_value(&value).unwrap()`
(panic modelled as `Except.error`), then one `with_transact_mut` scope around
`insert_json_value_to_map_ref(key, &value, self.map_ref.clone(), txn)` —
the target here is the wrapper's own map node, not the node at `key`. -/
def wrapper_insert_json (ctx : CollabContext) (key : String) (v : SerInput) :
    Except String CollabContext :=
  match to_value v with
  | .error e => .error e
  | .ok value =>
      .ok (with_transact_mut ctx
        (fun d => (insert_json_value_to_map_ref key value d, ()))).1

/-! ## Schema resolver (`src/collab-derive/src/internal/ast.rs`) -/

/-- A `syn::Lit` literal as it appears in an attribute value. -/
inductive Lit where
  | str : String → Lit
  | int : Int → Lit
  | boolLit : Bool → Lit
deriving DecidableEq, Repr

/-- A nested meta item found under the `yrs` attribute namespace
(`syn::NestedMeta`): a `name = literal` pair, a bare path, a nested list, or
a bare literal. -/
inductive NestedMeta where
  | nameValue : String → Lit → NestedMeta
  | pathMeta : String → NestedMeta
  | listMeta : String → NestedMeta
  | litMeta : Lit → NestedMeta
deriving DecidableEq, Repr

/-- A declared field as the resolver sees it: optional identifier (named vs
positional), its source location, and the nested meta items carried under the
`yrs` attribute namespace (the output of `get_yrs_nested_meta`). -/
structure SynField where
  ident : Option String
  span : String
  yrsMetas : List NestedMeta
deriving DecidableEq, Repr

/-- Modelled from the spec: `ASTResult` (`internal/ctxt.rs`, not under `src/`)
accumulates every reported error, "each tagged with its originating source
location"; modelled as the list of (location, message) pairs in report
order. -/
abbrev ASTResult := List (String × String)

/-- Source `ASTResult::error_spanned_by`: record one error against a source
location. -/
def error_spanned_by (res : ASTResult) (span msg : String) : ASTResult :=
  res ++ [(span, msg)]

/-- Constant `pub const PRS_TY: Symbol = Symbol("ty")`. -/
def PRS_TY : String := "ty"

/-- The message of `ast_result.error_spanned_by(meta_item, "unexpected meta in field attribute")`. -/
def unexpectedMetaMsg : String := "unexpected meta in field attribute"

/-- The per-field attribute descriptor: `YrsAttribute { ty: Option<LitStr> }`
(the string payload of the literal). -/
structure YrsAttribute where
  ty : Option String
deriving DecidableEq, Repr

/-- The loop body of `YrsAttribute::from_ast`: for each nested meta item,
`Meta(NameValue(m)) if m.path == PRS_TY` sets the tag only when the literal is
a string (`if let syn::Lit::Str(lit) = &m.lit`, silently skipping otherwise);
every other item hits the `_` arm and records
"unexpected meta in field attribute" at that item's location (the field's
span). -/
def processYrsMetas (span : String) (errs : ASTResult) (ty : Option String) :
    List NestedMeta → ASTResult × Option String
  | [] => (errs, ty)
  | .nameValue p l :: rest =>
      if p = PRS_TY then
        match l with
        | .str s => processYrsMetas span errs (some s) rest
        | _ => processYrsMetas span errs ty rest
      else processYrsMetas span (error_spanned_by errs span unexpectedMetaMsg) ty rest
  | _ :: rest =>
      processYrsMetas span (error_spanned_by errs span unexpectedMetaMsg) ty rest

/-- Source `YrsAttribute::from_ast`: fold the loop above over the field's `yrs`
nested metas, starting from `ASTFieldAttr::none` (no tag). -/
def YrsAttribute.from_ast (res : ASTResult) (f : SynField) :
    ASTResult × YrsAttribute :=
  let r := processYrsMetas f.span res none f.yrsMetas
  (r.1, ⟨r.2⟩)

/-- A resolved field: `ASTField { member, yrs_attr, .. }` (the `ty` and
`original` back-references carry no resolution content). -/
structure ASTField where
  member : String
  yrs_attr : YrsAttribute
deriving DecidableEq, Repr

/-- Source `ASTField::new`: member is the named identifier when present, the
positional index otherwise; the attribute descriptor comes from
`YrsAttribute::from_ast`. -/
def ASTField.new (res : ASTResult) (f : SynField) (index : Nat) :
    ASTResult × ASTField :=
  let r := YrsAttribute.from_ast res f
  (r.1,
   { member := match f.ident with | some i => i | none => toString index,
     yrs_attr := r.2 })

/-- Model of `syn::Fields`: named fields, positional fields, or a unit body. -/
inductive Fields where
  | named : List SynField → Fields
  | unnamed : List SynField → Fields
  | unit : Fields
deriving DecidableEq, Repr

/-- Model of `ASTStyle`: the container style tag (named-field vs positional vs unit). -/
inductive ASTStyle where
  | namedStyle : ASTStyle
  | positionalStyle : ASTStyle
  | unitStyle : ASTStyle
deriving DecidableEq, Repr

/-- Modelled from the spec: the field-list walk inside `struct_from_ast` (not
under `src/`) — resolve every field in order through `ASTField::new`,
accumulating all errors. -/
def fields_from_ast (res : ASTResult) (index : Nat) :
    List SynField → ASTResult × List ASTField
  | [] => (res, [])
  | f :: rest =>
      let r := ASTField.new res f index
      let r2 := fields_from_ast r.1 (index + 1) rest
      (r2.1, r.2 :: r2.2)

/-- Modelled from the spec: `struct_from_ast` (not under `src/`) — "a single
pass determines the container's style (named-field vs positional vs unit) and
builds the field list". -/
def struct_from_ast (res : ASTResult) :
    Fields → ASTResult × (ASTStyle × List ASTField)
  | .named fs =>
      let r := fields_from_ast res 0 fs
      (r.1, (.namedStyle, r.2))
  | .unnamed fs =>
      let r := fields_from_ast res 0 fs
      (r.1, (.positionalStyle, r.2))
  | .unit => (res, (.unitStyle, []))

/-- A `syn::Variant`: identifier plus its fields. -/
structure Variant where
  ident : String
  fields : Fields
deriving DecidableEq, Repr

/-- Model of `ASTEnumVariant { ident, style, fields, .. }`. -/
structure ASTEnumVariant where
  ident : String
  style : ASTStyle
  fields : List ASTField
deriving DecidableEq, Repr

/-- Modelled from the spec: `enum_from_ast` (not under `src/`) — "for every
variant, recursively resolve its fields exactly as for a struct, under that
variant's own style". -/
def enum_from_ast (res : ASTResult) :
    List Variant → ASTResult × List ASTEnumVariant
  | [] => (res, [])
  | v :: rest =>
      let r := struct_from_ast res v.fields
      let r2 := enum_from_ast r.1 rest
      (r2.1, ⟨v.ident, r.2.1, r.2.2⟩ :: r2.2)

/-- Model of `syn::Data`: the body of a type declaration. -/
inductive Data where
  | structData : Fields → Data
  | unionData : Data
  | enumData : List Variant → Data
deriving DecidableEq, Repr

/-- Model of `syn::DeriveInput`: identifier (also standing in for the declaration's
source location) plus body. -/
structure DeriveInput where
  ident : String
  data : Data
deriving DecidableEq, Repr

/-- Model of `ASTData`: resolved struct body or resolved enum variants. -/
inductive ASTData where
  | structD : ASTStyle → List ASTField → ASTData
  | enumD : List ASTEnumVariant → ASTData
deriving DecidableEq, Repr

/-- Model of `ASTContainer { ident, data, .. }` (the `path` container attribute comes
from `get_key`, which lives outside `src/` and is exercised by no claim; it is
omitted). -/
structure ASTContainer where
  ident : String
  data : ASTData
deriving DecidableEq, Repr

/-- Source `ASTContainer::from_ast`: structs resolve through `struct_from_ast`,
enums through `enum_from_ast`; a union records
"Does not support derive for unions" against the declaration and returns
`None`. -/
def ASTContainer.from_ast (res : ASTResult) (ast : DeriveInput) :
    ASTResult × Option ASTContainer :=
  match ast.data with
  | .structData fields =>
      let r := struct_from_ast res fields
      (r.1, some ⟨ast.ident, .structD r.2.1 r.2.2⟩)
  | .unionData =>
      (error_spanned_by res ast.ident "Does not support derive for unions", none)
  | .enumData variants =>
      let r := enum_from_ast res variants
      (r.1, some ⟨ast.ident, .enumD r.2⟩)

/-- Modelled from the spec: the derive entry point around `from_ast` (the
macro driver and `ASTResult::check` live outside `src/`) — "only if zero
errors were accumulated does it produce the resolved container
description". -/
def resolve_container (ast : DeriveInput) :
    Except ASTResult ASTContainer :=
  let r := ASTContainer.from_ast [] ast
  match r.2 with
  | none => .error r.1
  | some c => if r.1.isEmpty then .ok c else .error r.1

/-! ## Specification-side descriptions of the resolver's error output -/

/-- A meta item the attribute loop reports as an error: anything that is not
a `ty = <literal>` name-value pair. -/
def isBadMeta : NestedMeta → Bool
  | .nameValue p _ => p ≠ PRS_TY
  | _ => true

/-- The errors the attribute loop reports for one field's metas. -/
def metaErrors (span : String) (metas : List NestedMeta) : ASTResult :=
  (metas.filter isBadMeta).map (fun _ => (span, unexpectedMetaMsg))

/-- The type tag left behind by the attribute loop: the last `ty` name-value
pair carrying a string literal, starting from `ty`. -/
def tyOf (metas : List NestedMeta) (ty : Option String) : Option String :=
  match metas with
  | [] => ty
  | .nameValue p (.str s) :: rest => tyOf rest (if p = PRS_TY then some s else ty)
  | _ :: rest => tyOf rest ty

/-- All errors of one field. -/
def fieldErrors (f : SynField) : ASTResult :=
  metaErrors f.span f.yrsMetas

/-- All errors across a field list, in field order. -/
def fieldsErrors : List SynField → ASTResult
  | [] => []
  | f :: rest => fieldErrors f ++ fieldsErrors rest

/-- The raw fields of a `syn::Fields` body. -/
def fieldsOf : Fields → List SynField
  | .named fs => fs
  | .unnamed fs => fs
  | .unit => []

/-- All errors across an enum's variants, in declaration order. -/
def variantsErrors : List Variant → ASTResult
  | [] => []
  | v :: rest => fieldsErrors (fieldsOf v.fields) ++ variantsErrors rest

theorem mapGet_mapInsert_self (m : MapNode) (key : String) (v : YrsValue) :
    mapGet (mapInsert m key v) key = some v := by
  induction m with
  | nil => simp [mapInsert, mapGet]
  | cons hd tl ih =>
      obtain ⟨k, w⟩ := hd
      by_cases h : k = key
      · simp [mapInsert, h, mapGet]
      · simp [mapInsert, h, mapGet, ih]

theorem processYrsMetas_eq (span : String) (metas : List NestedMeta) :
    ∀ (errs : ASTResult) (ty : Option String),
      processYrsMetas span errs ty metas
        = (errs ++ metaErrors span metas, tyOf metas ty) := by
  induction metas with
  | nil => intro errs ty; simp [processYrsMetas, metaErrors, tyOf]
  | cons meta rest ih =>
      intro errs ty
      cases meta with
      | nameValue p l =>
          by_cases hp : p = PRS_TY
          · cases l with
            | str s =>
                simp [processYrsMetas, hp, ih, metaErrors, tyOf, isBadMeta,
                      List.filter]
            | int n =>
                simp [processYrsMetas, hp, ih, metaErrors, tyOf, isBadMeta,
                      List.filter]
            | boolLit b =>
                simp [processYrsMetas, hp, ih, metaErrors, tyOf, isBadMeta,
                      List.filter]
          · cases l with
            | str s =>
                simp [processYrsMetas, hp, ih, metaErrors, tyOf, isBadMeta,
                      List.filter, error_spanned_by, List.append_assoc]
            | int n =>
                simp [processYrsMetas, hp, ih, metaErrors, tyOf, isBadMeta,
                      List.filter, error_spanned_by, List.append_assoc]
            | boolLit b =>
                simp [processYrsMetas, hp, ih, metaErrors, tyOf, isBadMeta,
                      List.filter, error_spanned_by, List.append_assoc]
      | pathMeta p =>
          simp [processYrsMetas, ih, metaErrors, tyOf, isBadMeta, List.filter,
                error_spanned_by, List.append_assoc]
      | listMeta p =>
          simp [processYrsMetas, ih, metaErrors, tyOf, isBadMeta, List.filter,
                error_spanned_by, List.append_assoc]
      | litMeta l =>
          simp [processYrsMetas, ih, metaErrors, tyOf, isBadMeta, List.filter,
                error_spanned_by, List.append_assoc]

theorem yrsAttr_from_ast_eq (res : ASTResult) (f : SynField) :
    YrsAttribute.from_ast res f
      = (res ++ fieldErrors f, ⟨tyOf f.yrsMetas none⟩) := by
  simp [YrsAttribute.from_ast, processYrsMetas_eq, fieldErrors]

theorem fields_from_ast_errs (fs : List SynField) :
    ∀ (res : ASTResult) (index : Nat),
      (fields_from_ast res index fs).1 = res ++ fieldsErrors fs := by
  induction fs with
  | nil => intro res index; simp [fields_from_ast, fieldsErrors]
  | cons f rest ih =>
      intro res index
      simp [fields_from_ast, ASTField.new, yrsAttr_from_ast_eq, fieldsErrors,
            ih, List.append_assoc]

theorem struct_from_ast_errs (res : ASTResult) (fs : Fields) :
    (struct_from_ast res fs).1 = res ++ fieldsErrors (fieldsOf fs) := by
  cases fs with
  | named l => simp [struct_from_ast, fieldsOf, fields_from_ast_errs]
  | unnamed l => simp [struct_from_ast, fieldsOf, fields_from_ast_errs]
  | unit => simp [struct_from_ast, fieldsOf, fieldsErrors]

theorem enum_from_ast_errs (vs : List Variant) :
    ∀ (res : ASTResult),
      (enum_from_ast res vs).1 = res ++ variantsErrors vs := by
  induction vs with
  | nil => intro res; simp [enum_from_ast, variantsErrors]
  | cons v rest ih =>
      intro res
      simp [enum_from_ast, struct_from_ast_errs, variantsErrors, ih,
            List.append_assoc]

/-! ## Claims -/

/-- C1 (amended): `insert_json_with_txn` serializes the value, but writes only
when the key already holds a map node — the serialized value then lands under
the same key inside that existing map node; when the key is absent or holds a
non-map node the call succeeds and leaves the map unchanged.  The
transaction-opening `insert_json`, by contrast, writes the serialized value at
the key of its own map node unconditionally. -/
theorem C1_insert_json_guarded (m : MapNode) (key : String) (j : JsonValue)
    (ctx : CollabContext) :
    (get_map_with_txn m key = none →
      insert_json_with_txn m key (.json j) = .ok m)
    ∧ (∀ inner, get_map_with_txn m key = some inner →
        insert_json_with_txn m key (.json j)
          = .ok (mapInsert m key (.ymap (mapInsert inner key (jsonToYrs j)))))
    ∧ wrapper_insert_json ctx key (.json j)
        = .ok ⟨mapInsert ctx.doc key (jsonToYrs j), ctx.committed + 1⟩ := by
  refine ⟨?_, ?_, rfl⟩
  · intro h; simp [insert_json_with_txn, to_value, h]
  · intro inner h
    simp [insert_json_with_txn, to_value, h, insert_json_value_to_map_ref]

/-- C1 counterexample: with nothing stored at `"cfg"`, `insert_json_with_txn`
serializes successfully yet writes nothing — the resulting map is unchanged
and the key is still absent, contradicting "writes it into a freshly addressed
map node at that key ... regardless of what (if anything) was stored there
before". -/
theorem C1_counterexample :
    insert_json_with_txn [] "cfg" (.json (.obj [("a", .num 1)])) = .ok ([] : MapNode)
    ∧ mapGet ([] : MapNode) "cfg" = none := ⟨rfl, rfl⟩

/-- C1 witness: a key already holding a map node takes the write, nested under
the same key inside that node. -/
theorem C1_witness :
    get_map_with_txn [("cfg", YrsValue.ymap [])] "cfg" = some [] ∧
    insert_json_with_txn [("cfg", YrsValue.ymap [])] "cfg" (.json (.num 2))
      = .ok [("cfg", YrsValue.ymap [("cfg", YrsValue.yany (.intV 2))])] :=
  ⟨rfl, (C1_insert_json_guarded [("cfg", YrsValue.ymap [])] "cfg" (.num 2)
          ⟨[], 0⟩).2.1 [] rfl⟩

/-- C2 (amended): the attribute loop records exactly one
"unexpected meta in field attribute" error, at the field's source location,
for every nested meta that is not a `ty` name-value pair; a `ty = <literal>`
whose literal is a string sets the tag with no error, and a `ty` whose value
is not a string literal is silently ignored — no error is recorded and the tag
stays unset. -/
theorem C2_attr_grammar (res : ASTResult) (f : SynField) (p : String) (l : Lit) :
    YrsAttribute.from_ast res f
      = (res ++ metaErrors f.span f.yrsMetas, ⟨tyOf f.yrsMetas none⟩)
    ∧ (p ≠ PRS_TY → metaErrors f.span [.nameValue p l] = [(f.span, unexpectedMetaMsg)])
    ∧ (∀ s, YrsAttribute.from_ast res { f with yrsMetas := [.nameValue PRS_TY (.str s)] }
          = (res, ⟨some s⟩))
    ∧ (∀ n, YrsAttribute.from_ast res { f with yrsMetas := [.nameValue PRS_TY (.int n)] }
          = (res, ⟨none⟩)) := by
  refine ⟨?_, ?_, ?_, ?_⟩
  · simpa [fieldErrors] using yrsAttr_from_ast_eq res f
  · intro hp; simp [metaErrors, isBadMeta, List.filter, hp]
  · intro s
    simp [yrsAttr_from_ast_eq, fieldErrors, metaErrors, isBadMeta, List.filter,
          tyOf, PRS_TY]
  · intro n
    simp [yrsAttr_from_ast_eq, fieldErrors, metaErrors, isBadMeta, List.filter,
          tyOf, PRS_TY]

/-- C2 counterexample: a `ty` value that is not a string literal
(`#[yrs(ty = 7)]`) records no descriptor error — the error list stays empty
and the tag stays unset, contradicting "a ty value that is not a string
literal (malformed value) causes a descriptor error". -/
theorem C2_counterexample :
    YrsAttribute.from_ast [] ⟨some "field_a", "field_a", [.nameValue PRS_TY (.int 7)]⟩
      = ([], ⟨none⟩) := rfl

/-- C2 witness: a sub-option other than `ty` does record one error at the
field's location. -/
theorem C2_witness :
    ("other" ≠ PRS_TY)
    ∧ metaErrors "field_a" [.nameValue "other" (.int 1)]
        = [("field_a", unexpectedMetaMsg)] :=
  ⟨by decide,
   (C2_attr_grammar [] ⟨some "field_a", "field_a", []⟩ "other" (.int 1)).2.1
     (by decide)⟩

/-- C3: `create_array_if_not_exist_with_txn` is idempotent — when the key
already names an array node the map is left untouched and the existing items
are returned (the defaults are discarded); starting from an absent key, two
sequential calls with different default payloads leave the array equal to the
first call's defaults. -/
theorem C3_create_array_idempotent (m : MapNode) (key : String)
    (vs1 vs2 : List Scalar) :
    (∀ xs, mapGet m key = some (.yarray xs) →
       create_array_if_not_exist_with_txn m key vs1 = (m, xs))
    ∧ (mapGet m key = none →
        mapGet (create_array_if_not_exist_with_txn
            (create_array_if_not_exist_with_txn m key vs1).1 key vs2).1 key
          = some (.yarray (vs1.map YrsValue.yany))) := by
  constructor
  · intro xs h
    simp [create_array_if_not_exist_with_txn, get_array_ref_with_txn, h,
          YrsValue.to_yarray]
  · intro h
    have h1 : (create_array_if_not_exist_with_txn m key vs1).1
        = mapInsert m key (.yarray (vs1.map YrsValue.yany)) := by
      simp [create_array_if_not_exist_with_txn, get_array_ref_with_txn, h,
            insert_array_with_txn]
    rw [h1]
    have h2 := mapGet_mapInsert_self m key (.yarray (vs1.map YrsValue.yany))
    simp [create_array_if_not_exist_with_txn, get_array_ref_with_txn, h2,
          YrsValue.to_yarray]

/-- C3 witness: the spec's concrete scenario — seeding `"tags"` with
`["x","y"]` and calling again with `["z"]` leaves the array at `["x","y"]`. -/
theorem C3_witness :
    mapGet ([] : MapNode) "tags" = none ∧
    mapGet (create_array_if_not_exist_with_txn
        (create_array_if_not_exist_with_txn [] "tags" [.strV "x", .strV "y"]).1
        "tags" [.strV "z"]).1 "tags"
      = some (.yarray [.yany (.strV "x"), .yany (.strV "y")]) :=
  ⟨rfl, (C3_create_array_idempotent [] "tags" [.strV "x", .strV "y"]
          [.strV "z"]).2 rfl⟩

/-- A struct with three fields of which two carry malformed attributes (metas
that are not `ty` name-value pairs). -/
def twoBadStruct : DeriveInput :=
  ⟨"S", .structData (.named
    [⟨some "a", "a", [.pathMeta "weird"]⟩,
     ⟨some "b", "b", []⟩,
     ⟨some "c", "c", [.listMeta "nested"]⟩])⟩

/-- C4: resolution accumulates every error across every field (structs) and
every variant (enums) in one pass, each tagged with its source location; the
resolved container description is produced exactly when zero errors were
accumulated; and for a struct with three fields of which two carry malformed
attributes, exactly the two corresponding errors are reported and no binding
is produced. -/
theorem C4_error_accumulation (name : String) (fs : Fields) (vs : List Variant) :
    (ASTContainer.from_ast [] ⟨name, .structData fs⟩).1 = fieldsErrors (fieldsOf fs)
    ∧ (ASTContainer.from_ast [] ⟨name, .enumData vs⟩).1 = variantsErrors vs
    ∧ ((resolve_container ⟨name, .structData fs⟩).isOk = true
        ↔ fieldsErrors (fieldsOf fs) = [])
    ∧ resolve_container twoBadStruct
        = .error [("a", unexpectedMetaMsg), ("c", unexpectedMetaMsg)] := by
  refine ⟨?_, ?_, ?_, rfl⟩
  · simpa using struct_from_ast_errs [] fs
  · simpa using enum_from_ast_errs vs []
  · by_cases he : fieldsErrors (fieldsOf fs) = []
    · simp [resolve_container, ASTContainer.from_ast, struct_from_ast_errs, he,
            Except.isOk, Except.toBool]
    · simp [resolve_container, ASTContainer.from_ast, struct_from_ast_errs, he,
            Except.isOk, Except.toBool, List.isEmpty_iff]

/-- C5: the typed getters return `none` exactly when the key is absent or
holds a node of a different kind, and never signal an error; in particular a
key just overwritten with an array node yields `none` from the map-typed
getter. -/
theorem C5_typed_getters_none (m : MapNode) (key : String) :
    (get_map_with_txn m key = none ↔ ∀ inner, mapGet m key ≠ some (.ymap inner))
    ∧ (get_array_ref_with_txn m key = none ↔ ∀ xs, mapGet m key ≠ some (.yarray xs))
    ∧ (get_text_ref_with_txn m key = none ↔ ∀ s, mapGet m key ≠ some (.ytext s))
    ∧ (∀ items, get_map_with_txn (mapInsert m key (.yarray items)) key = none) := by
  refine ⟨?_, ?_, ?_, ?_⟩
  · cases h : mapGet m key with
    | none => simp [get_map_with_txn, h]
    | some v => cases v <;> simp [get_map_with_txn, h]
  · cases h : mapGet m key with
    | none => simp [get_array_ref_with_txn, h]
    | some v => cases v <;> simp [get_array_ref_with_txn, h, YrsValue.to_yarray]
  · cases h : mapGet m key with
    | none => simp [get_text_ref_with_txn, h]
    | some v => cases v <;> simp [get_text_ref_with_txn, h, YrsValue.to_ytext]
  · intro items
    simp [get_map_with_txn, mapGet_mapInsert_self]

/-- C6: `get_json_with_txn` returns `none` in exactly three situations — the
key is absent, the node at the key is not a map node, or decoding the
projected JSON value into the target type fails — so decode failure is
indistinguishable from absence; otherwise it returns `some` of the decoded
value. -/
theorem C6_read_structured_none {α : Type} (decode : JsonValue → Option α)
    (m : MapNode) (key : String) :
    (get_json_with_txn decode m key = none ↔
      (mapGet m key = none
       ∨ (∃ v, mapGet m key = some v ∧ ∀ inner, v ≠ YrsValue.ymap inner)
       ∨ (∃ inner, mapGet m key = some (.ymap inner)
            ∧ decode (yrsToJson (.ymap inner)) = none)))
    ∧ (∀ a, get_json_with_txn decode m key = some a ↔
        ∃ inner, mapGet m key = some (.ymap inner)
          ∧ decode (yrsToJson (.ymap inner)) = some a) := by
  constructor
  · cases h : mapGet m key with
    | none => simp [get_json_with_txn, get_map_with_txn, h]
    | some v => cases v <;> simp [get_json_with_txn, get_map_with_txn, h]
  · intro a
    cases h : mapGet m key with
    | none => simp [get_json_with_txn, get_map_with_txn, h]
    | some v => cases v <;> simp [get_json_with_txn, get_map_with_txn, h]

/-- C7: when `serde_json::to_value` cannot encode the value, `insert_json`
surfaces that failure to the caller (the `unwrap` panic, modelled as the error
branch) instead of silently doing nothing. -/
theorem C7_encode_failure_surfaced (ctx : CollabContext) (key : String)
    (v : SerInput) (e : String) :
    to_value v = .error e → wrapper_insert_json ctx key v = .error e := by
  intro h
  cases v with
  | json j => simp [to_value] at h
  | unencodable msg =>
      simp [to_value] at h
      subst h
      rfl

/-- C7 witness: an unencodable value makes `insert_json` fail loudly. -/
theorem C7_witness :
    to_value (.unencodable "key must be a string") = .error "key must be a string"
    ∧ wrapper_insert_json ⟨[], 0⟩ "k" (.unencodable "key must be a string")
        = .error "key must be a string" :=
  ⟨rfl, C7_encode_failure_surfaced ⟨[], 0⟩ "k"
          (.unencodable "key must be a string") "key must be a string" rfl⟩

/-- C8: each transaction-free mutating method — `insert`, `insert_array`,
`insert_map`, `insert_json` — opens exactly one mutating transaction via the
shared context (the committed count rises by exactly one), performs its single
logical operation inside it, and commits on scope exit. -/
theorem C8_one_transaction_per_call (ctx : CollabContext) (key : String)
    (v : YrsValue) (values : List Scalar) (entries : MapNode) (j : JsonValue) :
    wrapper_insert ctx key v = ⟨mapInsert ctx.doc key v, ctx.committed + 1⟩
    ∧ wrapper_insert_array ctx key values
      = (⟨(insert_array_with_txn ctx.doc key values).1, ctx.committed + 1⟩,
         (insert_array_with_txn ctx.doc key values).2)
    ∧ wrapper_insert_map ctx key entries
      = ⟨mapInsert ctx.doc key (.ymap entries), ctx.committed + 1⟩
    ∧ wrapper_insert_json ctx key (.json j)
      = .ok ⟨insert_json_value_to_map_ref key j ctx.doc, ctx.committed + 1⟩ :=
  ⟨rfl, rfl, rfl, rfl⟩

/-- C9: a union-shaped declaration is unconditionally rejected — one error is
recorded against the declaration and `from_ast` returns `none` — while struct
and enum declarations resolve in a single pass to a container description with
style and field list. -/
theorem C9_union_rejected (res : ASTResult) (ast : DeriveInput) :
    (ast.data = .unionData →
      ASTContainer.from_ast res ast
        = (res ++ [(ast.ident, "Does not support derive for unions")], none))
    ∧ (∀ fs, ast.data = .structData fs →
        ASTContainer.from_ast res ast
          = ((struct_from_ast res fs).1,
             some ⟨ast.ident, .structD (struct_from_ast res fs).2.1
                     (struct_from_ast res fs).2.2⟩))
    ∧ (∀ vs, ast.data = .enumData vs →
        ASTContainer.from_ast res ast
          = ((enum_from_ast res vs).1,
             some ⟨ast.ident, .enumD (enum_from_ast res vs).2⟩)) := by
  obtain ⟨ident, data⟩ := ast
  refine ⟨?_, ?_, ?_⟩
  · intro h; subst h; simp [ASTContainer.from_ast, error_spanned_by]
  · intro fs h; subst h; simp [ASTContainer.from_ast]
  · intro vs h; subst h; simp [ASTContainer.from_ast]

/-- C9 witness: a concrete union declaration is rejected with one located
error and no container. -/
theorem C9_witness :
    DeriveInput.data ⟨"U", .unionData⟩ = .unionData ∧
    ASTContainer.from_ast [] ⟨"U", .unionData⟩
      = ([("U", "Does not support derive for unions")], none) :=
  ⟨rfl, (C9_union_rejected [] ⟨"U", .unionData⟩).1 rfl⟩

/-- C10: `get_or_insert_array_with_txn` returns the existing items when the
key holds an array node; otherwise — key absent or key holding a non-array
node — it inserts a fresh empty array at the key (overwriting any non-array
value) and returns it. -/
theorem C10_get_or_insert_array (m : MapNode) (key : String) :
    (∀ xs, mapGet m key = some (.yarray xs) →
       get_or_insert_array_with_txn m key = (m, xs))
    ∧ (get_array_ref_with_txn m key = none →
        get_or_insert_array_with_txn m key = (mapInsert m key (.yarray []), []))
    ∧ (get_array_ref_with_txn m key = none ↔
        (mapGet m key = none
         ∨ ∃ v, mapGet m key = some v ∧ ∀ xs, v ≠ YrsValue.yarray xs)) := by
  refine ⟨?_, ?_, ?_⟩
  · intro xs h
    simp [get_or_insert_array_with_txn, get_array_ref_with_txn, h,
          YrsValue.to_yarray]
  · intro h
    simp [get_or_insert_array_with_txn, h, insert_array_with_txn]
  · cases h : mapGet m key with
    | none => simp [get_array_ref_with_txn, h]
    | some v => cases v <;> simp [get_array_ref_with_txn, h, YrsValue.to_yarray]

/-- C10 witness: a key holding a text node is overwritten with a fresh empty
array. -/
theorem C10_witness :
    get_array_ref_with_txn [("k", YrsValue.ytext "t")] "k" = none ∧
    get_or_insert_array_with_txn [("k", YrsValue.ytext "t")] "k"
      = ([("k", YrsValue.yarray [])], []) :=
  ⟨rfl, (C10_get_or_insert_array [("k", YrsValue.ytext "t")] "k").2.1 rfl⟩
